import Mathlib

/-!
Shallow embedding of the particle choreography engine of the Christmas-tree
repository (src/unnamed/part_001, Experience component; part_002 is an older
revision of the same component and agrees on the mode chain and removePhoto).

Conventions: JavaScript numbers are idealised as real numbers; Math.hypot is
the exact Euclidean distance; Date.now timestamps are integers (milliseconds);
Math.random draws are passed in as explicit real parameters in [0,1); the
THREE.Object3D identity of a mesh is modelled by a natural-number id, so the
focusTarget reference (an Object3D or null) becomes an Option over ids.
-/

open scoped Classical

namespace XmasTree

/-! ## Landmark geometry (processGestures, part_001 lines 879-912) -/

/-- A 2D landmark point (the z coordinate of a landmark is never read). -/
structure Pt where
  x : ℝ
  y : ℝ

/-- Math.hypot of the coordinate differences: Euclidean distance of two points. -/
noncomputable def hypot (a b : Pt) : ℝ :=
  Real.sqrt ((a.x - b.x) ^ 2 + (a.y - b.y) ^ 2)

/-- The seven landmarks consumed by processGestures:
wrist lm[0], thumb tip lm[4], index tip lm[8], palm center lm[9],
middle tip lm[12], ring tip lm[16], pinky tip lm[20]. -/
structure GHand where
  wrist : Pt
  thumb : Pt
  index : Pt
  palm : Pt
  middle : Pt
  ring : Pt
  pinky : Pt

/-- pinchDist = Math.hypot(thumb.x - index.x, thumb.y - index.y). -/
noncomputable def pinchDist (h : GHand) : ℝ := hypot h.thumb h.index

/-- dIndex = Math.hypot(index.x - wrist.x, index.y - wrist.y). -/
noncomputable def dIndex (h : GHand) : ℝ := hypot h.index h.wrist

/-- dMiddle: distance of the middle tip to the wrist. -/
noncomputable def dMiddle (h : GHand) : ℝ := hypot h.middle h.wrist

/-- dRing: distance of the ring tip to the wrist. -/
noncomputable def dRing (h : GHand) : ℝ := hypot h.ring h.wrist

/-- dPinky: distance of the pinky tip to the wrist. -/
noncomputable def dPinky (h : GHand) : ℝ := hypot h.pinky h.wrist

/-- avgDist: mean distance of the four finger tips to the wrist. -/
noncomputable def avgTipToWrist (h : GHand) : ℝ :=
  (dIndex h + dMiddle h + dRing h + dPinky h) / 4

/-- fistDistance: mean distance of the four finger tips to the palm center. -/
noncomputable def fistCompactness (h : GHand) : ℝ :=
  (hypot h.index h.palm + hypot h.middle h.palm
    + hypot h.ring h.palm + hypot h.pinky h.palm) / 4

/-- isPeace, literally from the source:
(dIndex > 0.25 and dMiddle > 0.25) and (dRing < dIndex * 0.7 and
dPinky < dMiddle * 0.7) and |dIndex - dMiddle| < 0.15. -/
def isPeace (h : GHand) : Prop :=
  (dIndex h > 0.25 ∧ dMiddle h > 0.25)
    ∧ (dRing h < dIndex h * 0.7 ∧ dPinky h < dMiddle h * 0.7)
    ∧ |dIndex h - dMiddle h| < 0.15

/-- Condition of the first branch of the mode chain: fistDistance < 0.18. -/
def isFist (h : GHand) : Prop := fistCompactness h < 0.18

/-- Condition of the second branch: pinchDist < 0.045 and avgDist > 0.28. -/
def isPinchFocus (h : GHand) : Prop := pinchDist h < 0.045 ∧ avgTipToWrist h > 0.28

/-- Condition of the third branch: avgDist > 0.4 and not isPeace. -/
def isOpenScatter (h : GHand) : Prop := avgTipToWrist h > 0.4 ∧ ¬ isPeace h

/-! ## Particle collection and the photo view -/

/-- Mode: the global layout state. -/
inductive Mode where
  | TREE
  | SCATTER
  | FOCUS
deriving DecidableEq

/-- The particle type tag. -/
inductive PType where
  | BOX
  | GOLD_BOX
  | GOLD_SPHERE
  | RED
  | CANE
  | DUST
  | PHOTO
deriving DecidableEq

/-- A record of one entry of the particleSystem array, as far as the photo
bookkeeping is concerned: the identity of its mesh and its type tag.
Distinct entries of the JavaScript array are distinct objects, which is
mirrored by a Nodup hypothesis where identity matters. -/
structure PRec where
  id : ℕ
  type : PType
deriving DecidableEq

/-- The PHOTO-only ordered view: sys.filter(p => p.type === "PHOTO"). -/
def photoView (sys : List PRec) : List PRec :=
  sys.filter fun p => decide (p.type = PType.PHOTO)

/-- removePhoto(index) from part_001 lines 357-370 (identical in part_002
lines 59-74): resolve index against the PHOTO view; when in range, remove
the resolved particle from the backing collection at the position indexOf
finds it (splice); otherwise do nothing.  The index is an arbitrary integer,
as in JavaScript. -/
def removePhoto (sys : List PRec) (index : ℤ) : List PRec :=
  let photos := photoView sys
  if h : 0 ≤ index ∧ index.toNat < photos.length then
    let targetP := photos.get ⟨index.toNat, h.2⟩
    let mainIndex := sys.indexOf targetP
    if mainIndex < sys.length then sys.eraseIdx mainIndex else sys
  else sys

/-! ## Controller state and processGestures (part_001 lines 877-948) -/

/-- The mutable controller fields touched by the gesture logic: the mode, the
focus reference, the particle collection, and the firework debounce clock.
The bursts counter counts calls of spawnFirework (it is not a source field;
it records the observable spawn events). -/
structure CtrlState where
  mode : Mode
  focusTarget : Option ℕ
  sys : List PRec
  lastFireworkTime : ℤ
  bursts : ℕ

/-- The focus selection photos[Math.floor(r * photos.length)].mesh for a
random draw r; when the lookup is somehow out of range (impossible for
r in [0,1) and a nonempty list) the old reference is kept. -/
noncomputable def pickFocus (photos : List PRec) (r : ℝ) (old : Option ℕ) : Option ℕ :=
  match photos.get? (⌊r * (photos.length : ℝ)⌋).toNat with
  | some p => some p.id
  | none => old

/-- The peace-fire block of processGestures (part_001 lines 914-920): on
isPeace with now - lastFireworkTime > 500 spawn a burst (counted) and stamp
the debounce clock; otherwise do nothing. -/
noncomputable def fireStep (s : CtrlState) (h : GHand) (now : ℤ) : CtrlState :=
  if isPeace h ∧ now - s.lastFireworkTime > 500 then
    { s with lastFireworkTime := now, bursts := s.bursts + 1 }
  else s

/-- The mode chain of processGestures (part_001 lines 922-943): fist TREE,
else pinch FOCUS (guarded by mode not already FOCUS; the focus target is
assigned only when the photo view is nonempty), else open-hand SCATTER,
else hold. -/
noncomputable def modeStep (s1 : CtrlState) (h : GHand) (r : ℝ) : CtrlState :=
  if isFist h then
    { s1 with mode := Mode.TREE, focusTarget := none }
  else if isPinchFocus h then
    if s1.mode ≠ Mode.FOCUS then
      let photos := photoView s1.sys
      let ft := if photos.length ≠ 0 then pickFocus photos r s1.focusTarget
        else s1.focusTarget
      { s1 with mode := Mode.FOCUS, focusTarget := ft }
    else s1
  else if isOpenScatter h then
    { s1 with mode := Mode.SCATTER, focusTarget := none }
  else s1

/-- processGestures for a cycle in which a hand is detected, called with the
current Date.now() value and the Math.random() draw used by the focus
selection.  Faithful to part_001 lines 914-943: first the peace-fire
debounced trigger, then the mode chain. -/
noncomputable def processGestures (s : CtrlState) (h : GHand) (now : ℤ) (r : ℝ) :
    CtrlState :=
  modeStep (fireStep s h now) h r

/-- removePhoto at the controller level: the imperative handle mutates only
the photo mesh group and the particleSystem array; every other controller
field, in particular focusTarget, is left untouched by the source. -/
def removePhotoCtrl (s : CtrlState) (index : ℤ) : CtrlState :=
  { s with sys := removePhoto s.sys index }

/-- The hand snapshot update of processGestures: s.hand.x = (lm9x - 0.5) * 2
and likewise for y.  Recorded for completeness; no claim refers to it. -/
noncomputable def handRemap (lm9 : Pt) : ℝ × ℝ :=
  ((lm9.x - 0.5) * 2, (lm9.y - 0.5) * 2)

/-! ## 3D vectors (THREE.Vector3 as used by the update loops) -/

/-- A 3D vector over the reals. -/
structure Vec3 where
  x : ℝ
  y : ℝ
  z : ℝ

/-- Vector3.lerp(t, alpha): each component moves by (target - current) * alpha. -/
noncomputable def lerpV (p t : Vec3) (alpha : ℝ) : Vec3 :=
  ⟨p.x + (t.x - p.x) * alpha, p.y + (t.y - p.y) * alpha, p.z + (t.z - p.z) * alpha⟩

/-- The Euclidean norm of a vector. -/
noncomputable def norm3 (v : Vec3) : ℝ := Real.sqrt (v.x ^ 2 + v.y ^ 2 + v.z ^ 2)

/-- The Euclidean distance of two vectors. -/
noncomputable def distV (a b : Vec3) : ℝ :=
  norm3 ⟨a.x - b.x, a.y - b.y, a.z - b.z⟩

/-! ## ParticleImpl.update (part_001 lines 550-614) -/

/-- The per-particle state and construction-time parameters of ParticleImpl.
The mutable render state is pos, rot and scaleV (mesh.position, mesh.rotation,
mesh.scale); everything else is assigned once in the constructor. -/
structure PartState where
  meshId : ℕ
  ptype : PType
  isDust : Bool
  pos : Vec3
  rot : Vec3
  scaleV : Vec3
  posTree : Vec3
  posScatter : Vec3
  baseScale : ℝ
  spinSpeed : Vec3
  fallSpeed : ℝ
  wobbleSpeed : ℝ
  wobbleDist : ℝ

/-- ParticleImpl.update(dt, mode, focusTarget, cameraPos), part_001 550-614.
External inputs that the method reads from the surrounding scene are passed
explicitly: nowMs is Date.now(); r1 and r2 are the Math.random() draws of the
dust recycle branch; invTarget is the point (0,2,35) transformed by the
inverse of the mainGroup world matrix (a scene-graph computation outside the
particle); lookRot is the orientation produced by mesh.lookAt(cameraPos).
The focusTarget reference comparison mesh === focusTarget becomes an id
comparison. -/
noncomputable def particleUpdate (st : PartState) (dt : ℝ) (mode : Mode)
    (focusTarget : Option ℕ) (invTarget lookRot : Vec3) (nowMs r1 r2 : ℝ) :
    PartState :=
  if st.isDust then
    if mode = Mode.TREE then
      let y1 := st.pos.y - st.fallSpeed * dt
      let time := nowMs * 0.001
      let x1 := st.pos.x + Real.sin (time * st.wobbleSpeed + st.meshId) * dt * st.wobbleDist
      let z1 := st.pos.z + Real.cos (time * st.wobbleSpeed + st.meshId) * dt * st.wobbleDist
      let p2 : Vec3 := if y1 < -20 then ⟨(r1 - 0.5) * 40, 20, (r2 - 0.5) * 40⟩
        else ⟨x1, y1, z1⟩
      let s := st.baseScale * (0.8 + 0.5 * Real.sin (nowMs * 0.005 + st.meshId))
      { st with pos := p2, scaleV := ⟨s, s, s⟩ }
    else
      let s := st.baseScale
      { st with pos := lerpV st.pos st.posScatter (dt * 0.5),
                scaleV := lerpV st.scaleV ⟨s, s, s⟩ dt }
  else
    let isFT : Prop := focusTarget = some st.meshId
    let target := if mode = Mode.SCATTER then st.posScatter
      else if mode = Mode.FOCUS then (if isFT then invTarget else st.posScatter)
      else st.posTree
    let speed : ℝ := if mode = Mode.FOCUS ∧ isFT then 5.0 else 2.0
    let pos1 := lerpV st.pos target (speed * dt)
    let rot1 := if mode = Mode.SCATTER then
        (⟨st.rot.x + st.spinSpeed.x * dt, st.rot.y + st.spinSpeed.y * dt,
          st.rot.z + st.spinSpeed.z * dt⟩ : Vec3)
      else if mode = Mode.TREE then
        (⟨st.rot.x + (0 - st.rot.x) * dt, st.rot.y + 0.5 * dt,
          st.rot.z + (0 - st.rot.z) * dt⟩ : Vec3)
      else st.rot
    let rot2 := if mode = Mode.FOCUS ∧ isFT then lookRot else rot1
    let sT : ℝ := if mode = Mode.SCATTER ∧ st.ptype = PType.PHOTO then st.baseScale * 2.0
      else if mode = Mode.FOCUS then (if isFT then 4.0 else st.baseScale * 0.8)
      else st.baseScale
    { st with pos := pos1, rot := rot2,
              scaleV := lerpV st.scaleV ⟨sT, sT, sT⟩ (4 * dt) }

/-- Iterated TREE-mode ticks of a particle with fixed dt, no focus target and
a fixed wall clock (only the wobble and scale phases read the clock; the dust
branch is never taken for the non-dust particles this is used with). -/
noncomputable def treeIter (st : PartState) (dt nowMs : ℝ) : ℕ → PartState
  | 0 => st
  | n + 1 => particleUpdate (treeIter st dt nowMs n) dt Mode.TREE none
      ⟨0, 0, 0⟩ ⟨0, 0, 0⟩ nowMs 0 0

/-! ## FireworkParticle (part_001 lines 283-322) and the animate loop -/

/-- FireworkParticle: position, velocity, elapsed life, randomized maxLife,
and the render attributes the update writes (material opacity, mesh scale). -/
structure Firework where
  pos : Vec3
  vel : Vec3
  life : ℝ
  maxLife : ℝ
  opacity : ℝ
  scale : ℝ

/-- FireworkParticle.update(dt), part_001 lines 309-321: life += dt; gravity
velocity.y -= 2.0 * dt; damping velocity *= 0.98; position += velocity * 25 * dt;
opacity and scale both set to 1 - life / maxLife. -/
noncomputable def fwUpdate (p : Firework) (dt : ℝ) : Firework :=
  let life1 := p.life + dt
  let v1 : Vec3 := ⟨p.vel.x, p.vel.y - 2.0 * dt, p.vel.z⟩
  let v2 : Vec3 := ⟨v1.x * 0.98, v1.y * 0.98, v1.z * 0.98⟩
  let pos1 : Vec3 := ⟨p.pos.x + v2.x * (25 * dt), p.pos.y + v2.y * (25 * dt),
    p.pos.z + v2.z * (25 * dt)⟩
  { p with pos := pos1, vel := v2, life := life1,
           opacity := 1 - life1 / p.maxLife, scale := 1 - life1 / p.maxLife }

/-- The boolean update returns: alive exactly when, after the tick,
life < maxLife. -/
noncomputable def fwAliveAfter (p : Firework) (dt : ℝ) : Prop :=
  (fwUpdate p dt).life < (fwUpdate p dt).maxLife

/-- One firework pass of the animate loop (part_001 lines 976-985) over the
live list with a disposal counter: every particle is updated; the ones whose
update returned false are removed from the active set and their render
resource disposed (counted), the others survive in order. -/
noncomputable def animateFw (dt : ℝ) (st : List Firework × ℕ) : List Firework × ℕ :=
  let updated := st.1.map fun p => fwUpdate p dt
  (updated.filter fun p => decide (p.life < p.maxLife),
    st.2 + (updated.filter fun p => decide (¬ p.life < p.maxLife)).length)

/-- Iterated animate passes at a fixed dt. -/
noncomputable def animateFwIter (dt : ℝ) : ℕ → List Firework × ℕ → List Firework × ℕ
  | 0, st => st
  | n + 1, st => animateFwIter dt n (animateFw dt st)

/-- Number of loop iterations of spawnFirework: for (i = 0; i < count; i++)
with the real bound count = 30 + r * 20 runs once for every natural below the
bound, i.e. ceil(count) times for a nonnegative bound. -/
noncomputable def fwCount (r : ℝ) : ℕ := ⌈(30 : ℝ) + r * 20⌉₊

/-- The loop-iteration reading of fwCount: i < fwCount r exactly when the
JavaScript loop guard i < 30 + r * 20 holds. -/
theorem fwCount_iff (r : ℝ) (i : ℕ) : i < fwCount r ↔ (i : ℝ) < 30 + r * 20 :=
  Nat.lt_ceil

/-- One particle of a burst (FireworkParticle constructor, lines 289-307):
position copied from the trigger center, each velocity component
(random - 0.5) * 1.5, life 0, maxLife 1.0 + random * 0.5, opacity 1 and
unit scale. -/
noncomputable def mkFirework (center : Vec3) (ra rb rc rd : ℝ) : Firework :=
  { pos := center
    vel := ⟨(ra - 0.5) * 1.5, (rb - 0.5) * 1.5, (rc - 0.5) * 1.5⟩
    life := 0
    maxLife := 1.0 + rd * 0.5
    opacity := 1
    scale := 1 }

/-- spawnFirework (part_001 lines 471-484): spawn fwCount r0 particles at the
center, the i-th built from the random draws R i 0 .. R i 3. -/
noncomputable def spawnFirework (center : Vec3) (r0 : ℝ) (R : ℕ → ℕ → ℝ) :
    List Firework :=
  (List.range (fwCount r0)).map fun i => mkFirework center (R i 0) (R i 1) (R i 2) (R i 3)

/-! ## The claimed classifier chain (for the refinement comparison of C3)

This definition follows the WORDS of claim C3 (spec section 4.1), not the
source: all five rules in one first-match-wins chain, with the peace-fire
rule in third position producing the fire flag and no candidate. -/

/-- Classifier result as described by claim C3: first component the candidate
mode, second component the fire flag. -/
noncomputable def claimC3Chain (h : GHand) : Option Mode × Prop :=
  if isFist h then (some Mode.TREE, False)
  else if isPinchFocus h then (some Mode.FOCUS, False)
  else if isPeace h then (none, True)
  else if avgTipToWrist h > 0.4 ∧ ¬ isPeace h then (some Mode.SCATTER, False)
  else (none, False)

/-- The candidate-mode chain as structured in the source (the branch of
part_001 lines 924-938 that is taken): fist, else pinch, else open, else
none.  The controller applies this to the state in modeStep. -/
noncomputable def codeCandidate (h : GHand) : Option Mode :=
  if isFist h then some Mode.TREE
  else if isPinchFocus h then some Mode.FOCUS
  else if isOpenScatter h then some Mode.SCATTER
  else none

/-! ## Evaluation helpers and concrete landmark sets -/

/-- Evaluate a hypot whose squared length is a known square. -/
theorem hypot_eval {p q : Pt} {d : ℝ} (hd : 0 ≤ d)
    (h : (p.x - q.x) ^ 2 + (p.y - q.y) ^ 2 = d ^ 2) : hypot p q = d := by
  unfold hypot
  rw [h]
  exact Real.sqrt_sq hd

/-- A fist: all four finger tips 0.05 away from the palm center.  Peace fails
because the ring tip is not much closer to the wrist than the index tip. -/
noncomputable def hFist : GHand :=
  { wrist := ⟨0, 0⟩, thumb := ⟨0, 0.36⟩, index := ⟨0, 0.35⟩, palm := ⟨0, 0.3⟩,
    middle := ⟨0, 0.35⟩, ring := ⟨0, 0.35⟩, pinky := ⟨0, 0.35⟩ }

/-- A hand that satisfies both the fist rule and the peace rule: tips close
to the palm center, yet index and middle extended relative to ring and pinky
in the wrist distances. -/
noncomputable def hFistPeace : GHand :=
  { wrist := ⟨0, 0⟩, thumb := ⟨0, 0.5⟩, index := ⟨0, 0.45⟩, palm := ⟨0, 0.3⟩,
    middle := ⟨0, 0.44⟩, ring := ⟨0, 0.31⟩, pinky := ⟨0, 0.3⟩ }

/-- A focus pinch: thumb and index tips 0.01 apart, all tips 0.5 from the
wrist (and from the palm center, so the fist rule fails). -/
noncomputable def hPinch : GHand :=
  { wrist := ⟨0, 0⟩, thumb := ⟨0, 0.51⟩, index := ⟨0, 0.5⟩, palm := ⟨0, 0⟩,
    middle := ⟨0, 0.5⟩, ring := ⟨0, 0.5⟩, pinky := ⟨0, 0.5⟩ }

/-- hFist satisfies the fist rule. -/
theorem hFist_isFist : isFist hFist := by
  have h1 : hypot (⟨0, 0.35⟩ : Pt) ⟨0, 0.3⟩ = 0.05 :=
    hypot_eval (by norm_num) (by norm_num)
  show (hypot ⟨0, 0.35⟩ ⟨0, 0.3⟩ + hypot ⟨0, 0.35⟩ ⟨0, 0.3⟩
      + hypot ⟨0, 0.35⟩ ⟨0, 0.3⟩ + hypot ⟨0, 0.35⟩ ⟨0, 0.3⟩) / 4 < 0.18
  rw [h1]
  norm_num

/-- hFist does not satisfy the peace rule (the ring tip is as far from the
wrist as the index tip). -/
theorem hFist_notPeace : ¬ isPeace hFist := by
  have hi : hypot (⟨0, 0.35⟩ : Pt) ⟨0, 0⟩ = 0.35 :=
    hypot_eval (by norm_num) (by norm_num)
  intro hp
  obtain ⟨-, ⟨hr, -⟩, -⟩ := hp
  have hr2 : (0.35 : ℝ) < 0.35 * 0.7 := by
    have e1 : dRing hFist = 0.35 := hi
    have e2 : dIndex hFist = 0.35 := hi
    rw [e1, e2] at hr
    exact hr
  norm_num at hr2

/-- hFistPeace satisfies the fist rule: mean tip-to-palm distance 0.075. -/
theorem hFistPeace_isFist : isFist hFistPeace := by
  have h1 : hypot (⟨0, 0.45⟩ : Pt) ⟨0, 0.3⟩ = 0.15 :=
    hypot_eval (by norm_num) (by norm_num)
  have h2 : hypot (⟨0, 0.44⟩ : Pt) ⟨0, 0.3⟩ = 0.14 :=
    hypot_eval (by norm_num) (by norm_num)
  have h3 : hypot (⟨0, 0.31⟩ : Pt) ⟨0, 0.3⟩ = 0.01 :=
    hypot_eval (by norm_num) (by norm_num)
  have h4 : hypot (⟨0, 0.3⟩ : Pt) ⟨0, 0.3⟩ = 0 :=
    hypot_eval (by norm_num) (by norm_num)
  show (hypot ⟨0, 0.45⟩ ⟨0, 0.3⟩ + hypot ⟨0, 0.44⟩ ⟨0, 0.3⟩
      + hypot ⟨0, 0.31⟩ ⟨0, 0.3⟩ + hypot ⟨0, 0.3⟩ ⟨0, 0.3⟩) / 4 < 0.18
  rw [h1, h2, h3, h4]
  norm_num

/-- hFistPeace satisfies the peace rule. -/
theorem hFistPeace_isPeace : isPeace hFistPeace := by
  have hi : hypot (⟨0, 0.45⟩ : Pt) ⟨0, 0⟩ = 0.45 :=
    hypot_eval (by norm_num) (by norm_num)
  have hm : hypot (⟨0, 0.44⟩ : Pt) ⟨0, 0⟩ = 0.44 :=
    hypot_eval (by norm_num) (by norm_num)
  have hr : hypot (⟨0, 0.31⟩ : Pt) ⟨0, 0⟩ = 0.31 :=
    hypot_eval (by norm_num) (by norm_num)
  have hp : hypot (⟨0, 0.3⟩ : Pt) ⟨0, 0⟩ = 0.3 :=
    hypot_eval (by norm_num) (by norm_num)
  have e1 : dIndex hFistPeace = 0.45 := hi
  have e2 : dMiddle hFistPeace = 0.44 := hm
  have e3 : dRing hFistPeace = 0.31 := hr
  have e4 : dPinky hFistPeace = 0.3 := hp
  refine ⟨⟨?_, ?_⟩, ⟨?_, ?_⟩, ?_⟩
  · rw [e1]; norm_num
  · rw [e2]; norm_num
  · rw [e3, e1]; norm_num
  · rw [e4, e2]; norm_num
  · rw [e1, e2]
    rw [abs_of_nonneg (show (0 : ℝ) ≤ 0.45 - 0.44 by norm_num)]
    norm_num

/-- hPinch satisfies the pinch rule. -/
theorem hPinch_isPinch : isPinchFocus hPinch := by
  have ht : hypot (⟨0, 0.51⟩ : Pt) ⟨0, 0.5⟩ = 0.01 :=
    hypot_eval (by norm_num) (by norm_num)
  have hw : hypot (⟨0, 0.5⟩ : Pt) ⟨0, 0⟩ = 0.5 :=
    hypot_eval (by norm_num) (by norm_num)
  constructor
  · show hypot ⟨0, 0.51⟩ ⟨0, 0.5⟩ < 0.045
    rw [ht]; norm_num
  · show (hypot ⟨0, 0.5⟩ ⟨0, 0⟩ + hypot ⟨0, 0.5⟩ ⟨0, 0⟩
        + hypot ⟨0, 0.5⟩ ⟨0, 0⟩ + hypot ⟨0, 0.5⟩ ⟨0, 0⟩) / 4 > 0.28
    rw [hw]; norm_num

/-- hPinch does not satisfy the fist rule (all tips 0.5 from the palm). -/
theorem hPinch_notFist : ¬ isFist hPinch := by
  have hw : hypot (⟨0, 0.5⟩ : Pt) ⟨0, 0⟩ = 0.5 :=
    hypot_eval (by norm_num) (by norm_num)
  intro hf
  have : (hypot (⟨0, 0.5⟩ : Pt) ⟨0, 0⟩ + hypot (⟨0, 0.5⟩ : Pt) ⟨0, 0⟩
      + hypot (⟨0, 0.5⟩ : Pt) ⟨0, 0⟩ + hypot (⟨0, 0.5⟩ : Pt) ⟨0, 0⟩) / 4 < 0.18 := hf
  rw [hw] at this
  norm_num at this

/-- hPinch does not satisfy the peace rule. -/
theorem hPinch_notPeace : ¬ isPeace hPinch := by
  have hw : hypot (⟨0, 0.5⟩ : Pt) ⟨0, 0⟩ = 0.5 :=
    hypot_eval (by norm_num) (by norm_num)
  intro hp
  obtain ⟨-, ⟨hr, -⟩, -⟩ := hp
  have e1 : dRing hPinch = 0.5 := hw
  have e2 : dIndex hPinch = 0.5 := hw
  rw [e1, e2] at hr
  norm_num at hr

/-! ## Structural lemmas about the gesture step -/

/-- The fire block does not touch mode, focus target or the collection. -/
theorem fireStep_state (s : CtrlState) (h : GHand) (now : ℤ) :
    (fireStep s h now).mode = s.mode ∧ (fireStep s h now).focusTarget = s.focusTarget
      ∧ (fireStep s h now).sys = s.sys := by
  unfold fireStep
  split <;> exact ⟨rfl, rfl, rfl⟩

/-- The burst count and debounce clock after the fire block. -/
theorem fireStep_clock (s : CtrlState) (h : GHand) (now : ℤ) :
    (fireStep s h now).bursts =
      (if isPeace h ∧ now - s.lastFireworkTime > 500 then s.bursts + 1 else s.bursts)
    ∧ (fireStep s h now).lastFireworkTime =
      (if isPeace h ∧ now - s.lastFireworkTime > 500 then now else s.lastFireworkTime) := by
  unfold fireStep
  by_cases hc : isPeace h ∧ now - s.lastFireworkTime > 500 <;> simp [hc]

/-- The mode chain does not touch the burst count, the debounce clock or the
collection. -/
theorem modeStep_preserves (s : CtrlState) (h : GHand) (r : ℝ) :
    (modeStep s h r).bursts = s.bursts
      ∧ (modeStep s h r).lastFireworkTime = s.lastFireworkTime
      ∧ (modeStep s h r).sys = s.sys := by
  unfold modeStep
  by_cases h1 : isFist h <;> by_cases h2 : isPinchFocus h <;>
    by_cases h3 : isOpenScatter h <;> simp [h1, h2, h3] <;>
    by_cases hm : s.mode = Mode.FOCUS <;> simp [hm]

/-- The mode after the chain is the candidate of the source chain when there
is one, else the prior mode (a FOCUS candidate yields FOCUS whether or not
the guard mode not-already-FOCUS fires, because the held mode is then FOCUS
itself). -/
theorem modeStep_mode (s : CtrlState) (h : GHand) (r : ℝ) :
    (modeStep s h r).mode = (codeCandidate h).getD s.mode := by
  unfold modeStep codeCandidate
  by_cases h1 : isFist h <;> by_cases h2 : isPinchFocus h <;>
    by_cases h3 : isOpenScatter h <;> simp [h1, h2, h3] <;>
    by_cases hm : s.mode = Mode.FOCUS <;> simp [hm]

/-- The burst count and debounce clock across a whole gesture step. -/
theorem pg_clock (s : CtrlState) (h : GHand) (now : ℤ) (r : ℝ) :
    (processGestures s h now r).bursts =
      (if isPeace h ∧ now - s.lastFireworkTime > 500 then s.bursts + 1 else s.bursts)
    ∧ (processGestures s h now r).lastFireworkTime =
      (if isPeace h ∧ now - s.lastFireworkTime > 500 then now else s.lastFireworkTime) := by
  unfold processGestures
  have hp := modeStep_preserves (fireStep s h now) h r
  rw [hp.1, hp.2.1]
  exact fireStep_clock s h now

/-- The mode across a whole gesture step. -/
theorem pg_mode (s : CtrlState) (h : GHand) (now : ℤ) (r : ℝ) :
    (processGestures s h now r).mode = (codeCandidate h).getD s.mode := by
  unfold processGestures
  rw [modeStep_mode, (fireStep_state s h now).1]

/-! ## Claim C10 -/

/-- Claim C10: whenever the classifier yields candidate TREE (fist rule,
fistCompactness < 0.18), the controller sets mode = TREE and clears the
focus target in the same tick, from any prior state. -/
theorem c10_theorem (s : CtrlState) (h : GHand) (now : ℤ) (r : ℝ)
    (hf : isFist h) :
    (processGestures s h now r).mode = Mode.TREE
      ∧ (processGestures s h now r).focusTarget = none := by
  unfold processGestures modeStep
  simp [hf]

/-- State with prior mode SCATTER, a photo in the collection and a stale
focus reference, for exercising the TREE transition. -/
def sScatter : CtrlState :=
  { mode := Mode.SCATTER, focusTarget := some 5, sys := [⟨5, PType.PHOTO⟩],
    lastFireworkTime := 0, bursts := 0 }

/-- Witness for C10: the fist hand, applied from a SCATTER state with a
nonempty photo set and a set focus reference. -/
theorem c10_witness :
    isFist hFist
      ∧ ((processGestures sScatter hFist 1000 0).mode = Mode.TREE
      ∧ (processGestures sScatter hFist 1000 0).focusTarget = none) :=
  ⟨hFist_isFist, c10_theorem sScatter hFist 1000 0 hFist_isFist⟩

/-! ## Claim C1 -/

/-- State with mode TREE and no particles at all (in particular no photos). -/
def sEmpty : CtrlState :=
  { mode := Mode.TREE, focusTarget := none, sys := [],
    lastFireworkTime := 0, bursts := 0 }

/-- Counterexample to claim C1: a FOCUS candidate (pinch) with an empty photo
set and mode TREE does NOT leave the mode at its previous value; the source
sets newMode = FOCUS outside the photos.length guard, so the controller
enters FOCUS with no focus target. -/
theorem c1_counterexample :
    isPinchFocus hPinch ∧ ¬ isFist hPinch
      ∧ sEmpty.mode ≠ Mode.FOCUS ∧ photoView sEmpty.sys = []
      ∧ (processGestures sEmpty hPinch 1000 0).mode = Mode.FOCUS
      ∧ (processGestures sEmpty hPinch 1000 0).mode ≠ sEmpty.mode := by
  have hcc : codeCandidate hPinch = some Mode.FOCUS := by
    unfold codeCandidate
    simp [hPinch_notFist, hPinch_isPinch]
  have hm : (processGestures sEmpty hPinch 1000 0).mode = Mode.FOCUS := by
    rw [pg_mode, hcc]
    rfl
  exact ⟨hPinch_isPinch, hPinch_notFist, by decide, rfl, hm, by rw [hm]; decide⟩

/-- Claim C1 as amended: on a FOCUS candidate with current mode not FOCUS and
an empty photo set, the controller still transitions the mode to FOCUS; only
the focus-target selection is skipped, so the focus target keeps its previous
value (no focus target is created). -/
theorem c1_theorem (s : CtrlState) (h : GHand) (now : ℤ) (r : ℝ)
    (hf : ¬ isFist h) (hp : isPinchFocus h) (hm : s.mode ≠ Mode.FOCUS)
    (he : photoView s.sys = []) :
    (processGestures s h now r).mode = Mode.FOCUS
      ∧ (processGestures s h now r).focusTarget = s.focusTarget := by
  unfold processGestures modeStep
  obtain ⟨h1, h2, h3⟩ := fireStep_state s h now
  simp [hf, hp, h1, h2, h3, hm, he]

/-- Witness for C1 (amended): the pinch hand on the empty TREE state. -/
theorem c1_witness :
    (¬ isFist hPinch ∧ isPinchFocus hPinch ∧ sEmpty.mode ≠ Mode.FOCUS
        ∧ photoView sEmpty.sys = [])
      ∧ ((processGestures sEmpty hPinch 1000 0).mode = Mode.FOCUS
      ∧ (processGestures sEmpty hPinch 1000 0).focusTarget = sEmpty.focusTarget) :=
  ⟨⟨hPinch_notFist, hPinch_isPinch, by decide, rfl⟩,
    c1_theorem sEmpty hPinch 1000 0 hPinch_notFist hPinch_isPinch (by decide) rfl⟩

/-! ## Claim C3 -/

/-- Counterexample to claim C3: at a hand satisfying both the fist rule and
the peace rule, the first-match-wins chain of the claim yields fire = false
(the fist rule wins), but the source spawns a firework burst in the same
cycle, because the peace-fire check runs before and independently of the
mode chain. -/
theorem c3_counterexample :
    isFist hFistPeace ∧ isPeace hFistPeace
      ∧ ¬ (claimC3Chain hFistPeace).2
      ∧ (processGestures sEmpty hFistPeace 1000 0).bursts = sEmpty.bursts + 1 := by
  refine ⟨hFistPeace_isFist, hFistPeace_isPeace, ?_, ?_⟩
  · unfold claimC3Chain
    rw [if_pos hFistPeace_isFist]
    exact not_false
  · rw [(pg_clock sEmpty hFistPeace 1000 0).1]
    have : isPeace hFistPeace ∧ (1000 : ℤ) - sEmpty.lastFireworkTime > 500 :=
      ⟨hFistPeace_isPeace, by norm_num [sEmpty]⟩
    rw [if_pos this]

/-- Claim C3 as amended: the candidate-mode rules do follow the fixed
priority fist, focus-pinch, scatter-open, hold with the first match winning,
exactly as the claim orders them (the SCATTER rule requiring peace false),
and a held candidate drives the mode; but the peace-fire rule is NOT part of
that chain: it is evaluated independently of (and before) the candidate
rules, so peace yields a debounced fire trigger even when the fist or the
pinch rule also matches. -/
theorem c3_theorem (h : GHand) (s : CtrlState) (now : ℤ) (r : ℝ) :
    codeCandidate h = (claimC3Chain h).1
      ∧ (modeStep s h r).mode = (codeCandidate h).getD s.mode
      ∧ (processGestures s h now r).bursts =
        (if isPeace h ∧ now - s.lastFireworkTime > 500 then s.bursts + 1 else s.bursts) := by
  refine ⟨?_, modeStep_mode s h r, (pg_clock s h now r).1⟩
  unfold codeCandidate claimC3Chain isOpenScatter
  by_cases h1 : isFist h
  · simp [h1]
  · by_cases h2 : isPinchFocus h
    · simp [h1, h2]
    · by_cases hpe : isPeace h
      · simp [h1, h2, hpe]
      · simp only [h1, h2, hpe, if_false, not_false_iff, and_true]
        split <;> rfl

/-! ## Claim C4 -/

/-- Claim C4: the firework trigger is debounced.  A spawn happens only when
at least 500 ms have elapsed since the last spawn, and stamps the debounce
clock; the trigger never changes the mode (the mode outcome is independent
of the clock); and in the concrete scenario of two fire classifications
300 ms apart exactly one burst is spawned (the suppressed trigger leaving
the whole clock state unchanged, i.e. discarded, not queued), while a third
600 ms after the first spawns a second burst. -/
theorem c4_theorem (s : CtrlState) (h : GHand) (t0 : ℤ) (r : ℝ)
    (hpe : isPeace h) (hel : t0 - s.lastFireworkTime > 500) :
    (∀ (s2 : CtrlState) (now2 : ℤ),
        (processGestures s2 h now2 r).bursts ≠ s2.bursts →
          now2 - s2.lastFireworkTime ≥ 500
          ∧ (processGestures s2 h now2 r).lastFireworkTime = now2)
    ∧ (∀ (s2 : CtrlState) (now2 now3 : ℤ),
        (processGestures s2 h now2 r).mode = (processGestures s2 h now3 r).mode)
    ∧ (processGestures s h t0 r).bursts = s.bursts + 1
    ∧ (processGestures (processGestures s h t0 r) h (t0 + 300) r).bursts = s.bursts + 1
    ∧ (processGestures (processGestures s h t0 r) h (t0 + 300) r).lastFireworkTime
        = (processGestures s h t0 r).lastFireworkTime
    ∧ (processGestures (processGestures (processGestures s h t0 r) h (t0 + 300) r) h
        (t0 + 600) r).bursts = s.bursts + 2 := by
  have key : ∀ (s2 : CtrlState) (now2 : ℤ),
      (processGestures s2 h now2 r).bursts =
        (if isPeace h ∧ now2 - s2.lastFireworkTime > 500 then s2.bursts + 1 else s2.bursts)
      ∧ (processGestures s2 h now2 r).lastFireworkTime =
        (if isPeace h ∧ now2 - s2.lastFireworkTime > 500 then now2 else s2.lastFireworkTime) :=
    fun s2 now2 => pg_clock s2 h now2 r
  have hc1 : isPeace h ∧ t0 - s.lastFireworkTime > 500 := ⟨hpe, hel⟩
  have e1b : (processGestures s h t0 r).bursts = s.bursts + 1 := by
    rw [(key s t0).1, if_pos hc1]
  have e1l : (processGestures s h t0 r).lastFireworkTime = t0 := by
    rw [(key s t0).2, if_pos hc1]
  have hc2 : ¬ (isPeace h ∧ (t0 + 300) - (processGestures s h t0 r).lastFireworkTime > 500) := by
    rw [e1l]
    intro hx
    omega
  have e2b : (processGestures (processGestures s h t0 r) h (t0 + 300) r).bursts
      = s.bursts + 1 := by
    rw [(key _ (t0 + 300)).1, if_neg hc2, e1b]
  have e2l : (processGestures (processGestures s h t0 r) h (t0 + 300) r).lastFireworkTime
      = (processGestures s h t0 r).lastFireworkTime := by
    rw [(key _ (t0 + 300)).2, if_neg hc2]
  have hc3 : isPeace h ∧ (t0 + 600)
      - (processGestures (processGestures s h t0 r) h (t0 + 300) r).lastFireworkTime > 500 := by
    refine ⟨hpe, ?_⟩
    rw [e2l, e1l]
    omega
  have e3b : (processGestures (processGestures (processGestures s h t0 r) h (t0 + 300) r) h
      (t0 + 600) r).bursts = s.bursts + 2 := by
    rw [(key _ (t0 + 600)).1, if_pos hc3, e2b]
  refine ⟨?_, ?_, e1b, e2b, e2l, e3b⟩
  · intro s2 now2 hb
    rw [(key s2 now2).1] at hb
    by_cases hcc : isPeace h ∧ now2 - s2.lastFireworkTime > 500
    · refine ⟨by omega, ?_⟩
      rw [(key s2 now2).2, if_pos hcc]
    · rw [if_neg hcc] at hb
      exact absurd rfl hb
  · intro s2 now2 now3
    rw [pg_mode, pg_mode]

/-- Witness for C4: the fist-and-peace hand fired at times 1000, 1300 and
1600 ms on the empty state (debounce clock 0): two bursts total. -/
theorem c4_witness :
    isPeace hFistPeace ∧ ((1000 : ℤ) - sEmpty.lastFireworkTime > 500)
      ∧ (processGestures (processGestures (processGestures sEmpty hFistPeace 1000 0)
          hFistPeace (1000 + 300) 0) hFistPeace (1000 + 600) 0).bursts
        = sEmpty.bursts + 2 := by
  have h500 : (1000 : ℤ) - sEmpty.lastFireworkTime > 500 := by norm_num [sEmpty]
  exact ⟨hFistPeace_isPeace, h500,
    (c4_theorem sEmpty hFistPeace 1000 0 hFistPeace_isPeace h500).2.2.2.2.2⟩

/-! ## List lemmas for the photo view -/

/-- Erasing an element that the filter keeps commutes with the filter. -/
theorem filter_erase_of_pos {α : Type} [DecidableEq α] (p : α → Bool) (l : List α)
    (a : α) (hpa : p a = true) : (l.erase a).filter p = (l.filter p).erase a := by
  induction l with
  | nil => rfl
  | cons b t ih =>
    by_cases hb : b = a
    · subst hb
      rw [List.erase_cons_head, List.filter_cons, if_pos hpa, List.erase_cons_head]
    · have hbeq : ¬ (b == a) = true := by simp [hb]
      rw [List.erase_cons_tail hbeq, List.filter_cons, List.filter_cons]
      by_cases hpb : p b = true
      · rw [if_pos hpb, if_pos hpb, List.erase_cons_tail hbeq, ih]
      · rw [if_neg hpb, if_neg hpb, ih]

/-- Erasing an element that the filter drops leaves the filter unchanged. -/
theorem filter_erase_of_neg {α : Type} [DecidableEq α] (p : α → Bool) (l : List α)
    (a : α) (hpa : p a = false) : (l.erase a).filter p = l.filter p := by
  induction l with
  | nil => rfl
  | cons b t ih =>
    by_cases hb : b = a
    · subst hb
      rw [List.erase_cons_head, List.filter_cons, if_neg (by simp [hpa])]
    · have hbeq : ¬ (b == a) = true := by simp [hb]
      rw [List.erase_cons_tail hbeq, List.filter_cons, List.filter_cons, ih]

/-- On a valid index, removePhoto erases exactly the i-th element of the
PHOTO view from the backing collection. -/
theorem removePhoto_valid (sys : List PRec) (i : ℤ)
    (h : 0 ≤ i ∧ i.toNat < (photoView sys).length) :
    removePhoto sys i = sys.erase ((photoView sys).get ⟨i.toNat, h.2⟩) := by
  unfold removePhoto
  rw [dif_pos h]
  have hmem : (photoView sys).get ⟨i.toNat, h.2⟩ ∈ sys :=
    List.mem_of_mem_filter (List.get_mem _ _ _)
  have hidx : sys.indexOf ((photoView sys).get ⟨i.toNat, h.2⟩) < sys.length :=
    List.indexOf_lt_length.2 hmem
  rw [if_pos hidx, List.eraseIdx_indexOf_eq_erase]

/-! ## Claim C5 -/

/-- Claim C5: remove(i) resolves i against the PHOTO-only ordered view.  For
a Nodup collection (JavaScript array entries are distinct objects) and i in
range: the element removed from the backing collection is exactly the i-th
photo of the view; the new PHOTO view is the old view with index i erased
(hence one shorter with all remaining photos in their old relative order, and
later indices resolving against the shortened view); the non-PHOTO particles
are untouched.  For i out of range (including negative i): the collection is
completely unchanged, with no error (removePhoto is total). -/
theorem c5_theorem (sys : List PRec) (i : ℤ) (hnd : sys.Nodup) :
    (∀ h : 0 ≤ i ∧ i.toNat < (photoView sys).length,
        removePhoto sys i = sys.erase ((photoView sys).get ⟨i.toNat, h.2⟩)
        ∧ photoView (removePhoto sys i) = (photoView sys).eraseIdx i.toNat
        ∧ (photoView (removePhoto sys i)).length + 1 = (photoView sys).length
        ∧ (removePhoto sys i).filter (fun p => decide (¬ p.type = PType.PHOTO))
            = sys.filter (fun p => decide (¬ p.type = PType.PHOTO)))
    ∧ (¬ (0 ≤ i ∧ i.toNat < (photoView sys).length) → removePhoto sys i = sys) := by
  constructor
  · intro h
    have hrw := removePhoto_valid sys i h
    have hphoto : (fun p => decide (p.type = PType.PHOTO))
        ((photoView sys).get ⟨i.toNat, h.2⟩) = true := by
      have := List.get_mem (photoView sys) i.toNat h.2
      unfold photoView at this
      exact (List.mem_filter.1 this).2
    have hview : photoView (removePhoto sys i) = (photoView sys).eraseIdx i.toNat := by
      have pv_eq : ∀ l : List PRec,
          photoView l = l.filter (fun p => decide (p.type = PType.PHOTO)) := fun _ => rfl
      rw [hrw, pv_eq, filter_erase_of_pos (fun p => decide (p.type = PType.PHOTO)) sys
        ((photoView sys).get ⟨i.toNat, h.2⟩) hphoto, ← pv_eq]
      have hnv : (photoView sys).Nodup := hnd.filter _
      rw [List.get_eq_getElem]
      exact hnv.erase_getElem i.toNat h.2
    refine ⟨hrw, hview, ?_, ?_⟩
    · rw [hview]
      exact List.length_eraseIdx_add_one h.2
    · rw [hrw]
      refine filter_erase_of_neg _ _ _ ?_
      simp only [decide_eq_false_iff_not, not_not]
      simpa using hphoto
  · intro h
    unfold removePhoto
    rw [dif_neg h]

/-- A small concrete collection: one ornament and two photos. -/
def sysW : List PRec := [⟨1, PType.BOX⟩, ⟨2, PType.PHOTO⟩, ⟨3, PType.PHOTO⟩]

/-- Witness for C5: removing photo 0 of the view erases the first PHOTO and
keeps the rest in order; out-of-range indices (negative or too large) are
no-ops. -/
theorem c5_witness :
    sysW.Nodup
      ∧ photoView (removePhoto sysW 0) = (photoView sysW).eraseIdx 0
      ∧ removePhoto sysW (-5) = sysW
      ∧ removePhoto sysW 2 = sysW := by
  refine ⟨by decide, ?_, ?_, ?_⟩
  · exact ((c5_theorem sysW 0 (by decide)).1 ⟨by decide, by decide⟩).2.1
  · exact (c5_theorem sysW (-5) (by decide)).2 (by decide)
  · exact (c5_theorem sysW 2 (by decide)).2 (by decide)

/-! ## Claim C2 -/

/-- A FOCUS state whose focus target references the only photo particle. -/
def sFocus : CtrlState :=
  { mode := Mode.FOCUS, focusTarget := some 7, sys := [⟨7, PType.PHOTO⟩],
    lastFireworkTime := 0, bursts := 0 }

/-- Counterexample to claim C2: in a FOCUS state focused on the only photo,
removing that photo via its view index does NOT clear the focus target; the
source removePhoto never touches focusTarget, so the reference dangles (it
names a particle absent from the collection). -/
theorem c2_counterexample :
    sFocus.mode = Mode.FOCUS ∧ sFocus.focusTarget = some 7
      ∧ (photoView sFocus.sys).get? 0 = some ⟨7, PType.PHOTO⟩
      ∧ (removePhotoCtrl sFocus 0).sys = []
      ∧ (removePhotoCtrl sFocus 0).focusTarget = some 7
      ∧ (removePhotoCtrl sFocus 0).focusTarget ≠ none := by
  refine ⟨rfl, rfl, by decide, by decide, rfl, by decide⟩

/-- Claim C2 as amended: removePhoto never modifies the focus target.  When
the focus target references the photo at the removed view index (ids unique,
as for distinct meshes), the removal keeps the stale reference while the
referenced particle disappears from the collection: the reference dangles
until a later TREE or SCATTER transition clears it. -/
theorem c2_theorem (s : CtrlState) (i : ℤ) (p : PRec)
    (hnd : (s.sys.map PRec.id).Nodup) (h0 : 0 ≤ i)
    (hget : (photoView s.sys).get? i.toNat = some p)
    (hft : s.focusTarget = some p.id) :
    (removePhotoCtrl s i).focusTarget = some p.id
      ∧ ∀ q ∈ (removePhotoCtrl s i).sys, q.id ≠ p.id := by
  have hlen : i.toNat < (photoView s.sys).length := by
    rcases List.get?_eq_some.1 hget with ⟨hl, -⟩
    exact hl
  have hgetv : (photoView s.sys).get ⟨i.toNat, hlen⟩ = p := by
    rcases List.get?_eq_some.1 hget with ⟨hl, he⟩
    exact he
  have hndsys : s.sys.Nodup := hnd.of_map PRec.id
  have hrw : (removePhotoCtrl s i).sys = s.sys.erase p := by
    show removePhoto s.sys i = s.sys.erase p
    rw [removePhoto_valid s.sys i ⟨h0, hlen⟩, hgetv]
  have hpm : p ∈ s.sys := by
    rw [← hgetv]
    exact List.mem_of_mem_filter (List.get_mem _ _ _)
  refine ⟨by show s.focusTarget = some p.id; exact hft, ?_⟩
  intro q hq hid
  rw [hrw] at hq
  rcases (hndsys.mem_erase_iff).1 hq with ⟨hne, hqm⟩
  exact hne (List.inj_on_of_nodup_map hnd hqm hpm hid)

/-- Witness for C2 (amended): the single-photo FOCUS state. -/
theorem c2_witness :
    ((sFocus.sys.map PRec.id).Nodup ∧ (0 : ℤ) ≤ 0
        ∧ (photoView sFocus.sys).get? (0 : ℤ).toNat = some ⟨7, PType.PHOTO⟩
        ∧ sFocus.focusTarget = some 7)
      ∧ ((removePhotoCtrl sFocus 0).focusTarget = some 7
        ∧ ∀ q ∈ (removePhotoCtrl sFocus 0).sys, q.id ≠ 7) :=
  ⟨⟨by decide, by decide, by decide, rfl⟩,
    c2_theorem sFocus 0 ⟨7, PType.PHOTO⟩ (by decide) (by decide) (by decide) rfl⟩

/-! ## Claim C7 -/

/-- Claim C7: one firework tick adds -2.0 dt to the vertical velocity
component, multiplies the whole velocity by 0.98, advances the position by
the (new) velocity times 25 dt, sets opacity and scale both to
1 - life / maxLife with the incremented life, and reports the particle alive
exactly while life < maxLife. -/
theorem c7_theorem (p : Firework) (dt : ℝ) :
    (fwUpdate p dt).vel.x = p.vel.x * 0.98
      ∧ (fwUpdate p dt).vel.y = (p.vel.y - 2.0 * dt) * 0.98
      ∧ (fwUpdate p dt).vel.z = p.vel.z * 0.98
      ∧ (fwUpdate p dt).pos.x = p.pos.x + (fwUpdate p dt).vel.x * (25 * dt)
      ∧ (fwUpdate p dt).pos.y = p.pos.y + (fwUpdate p dt).vel.y * (25 * dt)
      ∧ (fwUpdate p dt).pos.z = p.pos.z + (fwUpdate p dt).vel.z * (25 * dt)
      ∧ (fwUpdate p dt).life = p.life + dt
      ∧ (fwUpdate p dt).maxLife = p.maxLife
      ∧ (fwUpdate p dt).opacity = 1 - (p.life + dt) / p.maxLife
      ∧ (fwUpdate p dt).scale = 1 - (p.life + dt) / p.maxLife
      ∧ (fwAliveAfter p dt ↔ p.life + dt < p.maxLife) :=
  ⟨rfl, rfl, rfl, rfl, rfl, rfl, rfl, rfl, rfl, rfl, Iff.rfl⟩

/-! ## Claim C6 -/

/-- The distance to the lerp target contracts by the factor |1 - alpha|. -/
theorem distV_lerpV (p t : Vec3) (a : ℝ) :
    distV (lerpV p t a) t = |1 - a| * distV p t := by
  show Real.sqrt ((p.x + (t.x - p.x) * a - t.x) ^ 2 + (p.y + (t.y - p.y) * a - t.y) ^ 2
      + (p.z + (t.z - p.z) * a - t.z) ^ 2)
    = |1 - a| * Real.sqrt ((p.x - t.x) ^ 2 + (p.y - t.y) ^ 2 + (p.z - t.z) ^ 2)
  rw [show (p.x + (t.x - p.x) * a - t.x) ^ 2 + (p.y + (t.y - p.y) * a - t.y) ^ 2
        + (p.z + (t.z - p.z) * a - t.z) ^ 2
      = (1 - a) ^ 2 * ((p.x - t.x) ^ 2 + (p.y - t.y) ^ 2 + (p.z - t.z) ^ 2) by ring]
  rw [Real.sqrt_mul (sq_nonneg _), Real.sqrt_sq_eq_abs]

/-- The distance function is nonnegative. -/
theorem distV_nonneg (a b : Vec3) : 0 ≤ distV a b := Real.sqrt_nonneg _

/-- The particle update never touches the construction-time parameters. -/
theorem particleUpdate_const (st : PartState) (dt : ℝ) (m : Mode) (ft : Option ℕ)
    (inv lr : Vec3) (nowMs r1 r2 : ℝ) :
    (particleUpdate st dt m ft inv lr nowMs r1 r2).isDust = st.isDust
      ∧ (particleUpdate st dt m ft inv lr nowMs r1 r2).posTree = st.posTree := by
  unfold particleUpdate
  split
  · split
    · exact ⟨rfl, rfl⟩
    · exact ⟨rfl, rfl⟩
  · exact ⟨rfl, rfl⟩

/-- In TREE mode a non-dust particle lerps toward posTree at rate 2 dt. -/
theorem particleUpdate_tree_pos (st : PartState) (dt nowMs r1 r2 : ℝ)
    (ft : Option ℕ) (inv lr : Vec3) (hd : st.isDust = false) :
    (particleUpdate st dt Mode.TREE ft inv lr nowMs r1 r2).pos
      = lerpV st.pos st.posTree (2 * dt) := by
  unfold particleUpdate
  rw [if_neg (by simp [hd])]
  have h5 : ¬ (Mode.TREE = Mode.FOCUS ∧ ft = some st.meshId) := by simp
  simp only [if_neg h5]
  simp
  congr 1
  norm_num

/-- Iterated TREE ticks keep the parameters. -/
theorem treeIter_const (st : PartState) (dt nowMs : ℝ) (n : ℕ) :
    (treeIter st dt nowMs n).isDust = st.isDust
      ∧ (treeIter st dt nowMs n).posTree = st.posTree := by
  induction n with
  | zero => exact ⟨rfl, rfl⟩
  | succ k ih =>
    have h := particleUpdate_const (treeIter st dt nowMs k) dt Mode.TREE none
      ⟨0, 0, 0⟩ ⟨0, 0, 0⟩ nowMs 0 0
    exact ⟨h.1.trans ih.1, h.2.trans ih.2⟩

/-- Distance to posTree after n TREE ticks of a non-dust particle. -/
theorem treeIter_dist (st : PartState) (dt nowMs : ℝ) (hd : st.isDust = false) (n : ℕ) :
    distV (treeIter st dt nowMs n).pos st.posTree
      = |1 - 2 * dt| ^ n * distV st.pos st.posTree := by
  induction n with
  | zero => simp [treeIter]
  | succ k ih =>
    show distV (particleUpdate (treeIter st dt nowMs k) dt Mode.TREE none
        ⟨0, 0, 0⟩ ⟨0, 0, 0⟩ nowMs 0 0).pos st.posTree = _
    rw [particleUpdate_tree_pos _ _ _ _ _ _ _ _ ((treeIter_const st dt nowMs k).1.trans hd),
      (treeIter_const st dt nowMs k).2, distV_lerpV, ih]
    ring

/-- Claim C6: for a non-dust particle ticked in TREE mode (not the focus
target), the position step is the smoothing law with lerpSpeed 2.0 (and the
active focus target in FOCUS uses lerpSpeed 5.0 toward its transformed
world-space target); under 0 < dt and 2 dt < 1 with the mode held, the
distance to posTree is non-increasing every tick, and if initially nonzero
it stays nonzero after every finite number of ticks. -/
theorem c6_theorem (st : PartState) (dt : ℝ) (hd : st.isDust = false)
    (hdt : 0 < dt) (hlt : 2 * dt < 1) :
    (particleUpdate st dt Mode.TREE none ⟨0, 0, 0⟩ ⟨0, 0, 0⟩ 0 0 0).pos
        = lerpV st.pos st.posTree (2 * dt)
      ∧ (∀ (st2 : PartState) (inv lr : Vec3), st2.isDust = false →
          (particleUpdate st2 dt Mode.FOCUS (some st2.meshId) inv lr 0 0 0).pos
            = lerpV st2.pos inv (5 * dt))
      ∧ (∀ n : ℕ, distV (treeIter st dt 0 (n + 1)).pos st.posTree
          ≤ distV (treeIter st dt 0 n).pos st.posTree)
      ∧ (distV st.pos st.posTree ≠ 0 →
          ∀ n : ℕ, distV (treeIter st dt 0 n).pos st.posTree ≠ 0) := by
  have habs : |1 - 2 * dt| = 1 - 2 * dt := abs_of_pos (by linarith)
  refine ⟨particleUpdate_tree_pos st dt 0 0 0 none ⟨0, 0, 0⟩ ⟨0, 0, 0⟩ hd, ?_, ?_, ?_⟩
  · intro st2 inv lr hd2
    unfold particleUpdate
    rw [if_neg (by simp [hd2])]
    have h5 : (Mode.FOCUS = Mode.FOCUS ∧ (some st2.meshId : Option ℕ) = some st2.meshId) :=
      ⟨rfl, rfl⟩
    simp only [if_pos h5]
    congr 1
    norm_num
  · intro n
    rw [treeIter_dist st dt 0 hd, treeIter_dist st dt 0 hd, pow_succ]
    have h1 : |1 - 2 * dt| ^ n * |1 - 2 * dt| ≤ |1 - 2 * dt| ^ n * 1 := by
      apply mul_le_mul_of_nonneg_left _ (pow_nonneg (abs_nonneg _) n)
      rw [habs]
      linarith
    calc |1 - 2 * dt| ^ n * |1 - 2 * dt| * distV st.pos st.posTree
        ≤ |1 - 2 * dt| ^ n * 1 * distV st.pos st.posTree :=
          mul_le_mul_of_nonneg_right h1 (distV_nonneg _ _)
      _ = |1 - 2 * dt| ^ n * distV st.pos st.posTree := by ring
  · intro hne n
    rw [treeIter_dist st dt 0 hd]
    have hfac : |1 - 2 * dt| ≠ 0 := by
      rw [habs]
      linarith
    exact mul_ne_zero (pow_ne_zero n hfac) hne

/-- A non-dust ornament one unit away from its tree slot. -/
noncomputable def pTest : PartState :=
  { meshId := 0, ptype := PType.BOX, isDust := false, pos := ⟨1, 0, 0⟩,
    rot := ⟨0, 0, 0⟩, scaleV := ⟨1, 1, 1⟩, posTree := ⟨0, 0, 0⟩,
    posScatter := ⟨2, 0, 0⟩, baseScale := 1, spinSpeed := ⟨0, 0, 0⟩,
    fallSpeed := 1, wobbleSpeed := 1, wobbleDist := 1 }

/-- Witness for C6: dt = 1/4, initial distance 1; the distance after any
number of TREE ticks never reaches zero. -/
theorem c6_witness :
    (pTest.isDust = false ∧ (0 : ℝ) < 1 / 4 ∧ 2 * (1 / 4 : ℝ) < 1
        ∧ distV pTest.pos pTest.posTree ≠ 0)
      ∧ ∀ n : ℕ, distV (treeIter pTest (1 / 4) 0 n).pos pTest.posTree ≠ 0 := by
  have hdist : distV pTest.pos pTest.posTree = 1 := by
    show Real.sqrt (((1 : ℝ) - 0) ^ 2 + ((0 : ℝ) - 0) ^ 2 + ((0 : ℝ) - 0) ^ 2) = 1
    rw [show ((1 : ℝ) - 0) ^ 2 + ((0 : ℝ) - 0) ^ 2 + ((0 : ℝ) - 0) ^ 2 = 1 by norm_num]
    exact Real.sqrt_one
  have hne : distV pTest.pos pTest.posTree ≠ 0 := by rw [hdist]; norm_num
  exact ⟨⟨rfl, by norm_num, by norm_num, hne⟩,
    (c6_theorem pTest (1 / 4) rfl (by norm_num) (by norm_num)).2.2.2 hne⟩

/-! ## Claim C9 -/

/-- Claim C9: a dust particle in TREE mode snows independently: y drops by
fallSpeed dt; x and z wobble sinusoidally keyed by the wall clock with the
mesh id as per-particle phase; the scale pulses sinusoidally; when the new y
crosses -20 the particle recycles to y = 20 with randomized x and z.  In any
non-TREE mode the dust particle instead lerps toward posScatter at rate
0.5 dt and its scale lerps back to the base scale at rate dt. -/
theorem c9_theorem (st : PartState) (dt nowMs r1 r2 : ℝ) (m : Mode)
    (ft : Option ℕ) (inv lr : Vec3) (hd : st.isDust = true) :
    (¬ st.pos.y - st.fallSpeed * dt < -20 →
        (particleUpdate st dt Mode.TREE ft inv lr nowMs r1 r2).pos
          = ⟨st.pos.x + Real.sin (nowMs * 0.001 * st.wobbleSpeed + st.meshId)
                * dt * st.wobbleDist,
             st.pos.y - st.fallSpeed * dt,
             st.pos.z + Real.cos (nowMs * 0.001 * st.wobbleSpeed + st.meshId)
                * dt * st.wobbleDist⟩)
      ∧ (st.pos.y - st.fallSpeed * dt < -20 →
        (particleUpdate st dt Mode.TREE ft inv lr nowMs r1 r2).pos
          = ⟨(r1 - 0.5) * 40, 20, (r2 - 0.5) * 40⟩)
      ∧ (particleUpdate st dt Mode.TREE ft inv lr nowMs r1 r2).scaleV
          = ⟨st.baseScale * (0.8 + 0.5 * Real.sin (nowMs * 0.005 + st.meshId)),
             st.baseScale * (0.8 + 0.5 * Real.sin (nowMs * 0.005 + st.meshId)),
             st.baseScale * (0.8 + 0.5 * Real.sin (nowMs * 0.005 + st.meshId))⟩
      ∧ (m ≠ Mode.TREE →
        (particleUpdate st dt m ft inv lr nowMs r1 r2).pos
            = lerpV st.pos st.posScatter (dt * 0.5)
          ∧ (particleUpdate st dt m ft inv lr nowMs r1 r2).scaleV
            = lerpV st.scaleV ⟨st.baseScale, st.baseScale, st.baseScale⟩ dt) := by
  refine ⟨?_, ?_, ?_, ?_⟩
  · intro hnr
    unfold particleUpdate
    rw [if_pos (by simp [hd]), if_pos rfl]
    dsimp only
    rw [if_neg hnr]
  · intro hr
    unfold particleUpdate
    rw [if_pos (by simp [hd]), if_pos rfl]
    dsimp only
    rw [if_pos hr]
  · unfold particleUpdate
    rw [if_pos (by simp [hd]), if_pos rfl]
  · intro hm
    unfold particleUpdate
    rw [if_pos (by simp [hd]), if_neg hm]
    exact ⟨rfl, rfl⟩

/-- A dust particle high in the field. -/
noncomputable def pDust : PartState :=
  { meshId := 0, ptype := PType.DUST, isDust := true, pos := ⟨0, 5, 0⟩,
    rot := ⟨0, 0, 0⟩, scaleV := ⟨1, 1, 1⟩, posTree := ⟨0, 0, 0⟩,
    posScatter := ⟨3, 0, 0⟩, baseScale := 1, spinSpeed := ⟨0, 0, 0⟩,
    fallSpeed := 2, wobbleSpeed := 1, wobbleDist := 0.5 }

/-- Witness for C9: the dust particle, ticked with dt = 1 in SCATTER,
relaxes toward its scatter slot. -/
theorem c9_witness :
    (pDust.isDust = true ∧ Mode.SCATTER ≠ Mode.TREE
        ∧ ¬ pDust.pos.y - pDust.fallSpeed * 1 < -20)
      ∧ (particleUpdate pDust 1 Mode.SCATTER none ⟨0, 0, 0⟩ ⟨0, 0, 0⟩ 0 0 0).pos
          = lerpV pDust.pos pDust.posScatter (1 * 0.5) := by
  have h := c9_theorem pDust 1 0 0 0 Mode.SCATTER none ⟨0, 0, 0⟩ ⟨0, 0, 0⟩ rfl
  refine ⟨⟨rfl, by decide, ?_⟩, (h.2.2.2 (by decide)).1⟩
  show ¬ (5 : ℝ) - 2 * 1 < -20
  norm_num

/-! ## Claim C8 -/

/-- The survivors and the disposed of one pass partition the updated list. -/
theorem fw_filter_split (l : List Firework) :
    (l.filter fun p => decide (p.life < p.maxLife)).length
      + (l.filter fun p => decide (¬ p.life < p.maxLife)).length = l.length := by
  induction l with
  | nil => rfl
  | cons b t ih =>
    rw [List.filter_cons, List.filter_cons]
    by_cases hb : b.life < b.maxLife
    · rw [if_pos (by simpa using hb), if_neg (by simpa using hb)]
      simp only [List.length_cons]
      omega
    · rw [if_neg (by simpa using hb), if_pos (by simpa using hb)]
      simp only [List.length_cons]
      omega

/-- One animate pass conserves live particles plus total disposals. -/
theorem animateFw_count (dt : ℝ) (st : List Firework × ℕ) :
    (animateFw dt st).1.length + (animateFw dt st).2 = st.1.length + st.2 := by
  unfold animateFw
  have h1 := fw_filter_split (st.1.map fun p => fwUpdate p dt)
  have h2 : (st.1.map fun p => fwUpdate p dt).length = st.1.length := List.length_map _ _
  dsimp only
  omega

/-- Iterated passes conserve live particles plus total disposals: every
particle that leaves the live set is disposed exactly once. -/
theorem animateFwIter_count (dt : ℝ) (n : ℕ) (st : List Firework × ℕ) :
    (animateFwIter dt n st).1.length + (animateFwIter dt n st).2
      = st.1.length + st.2 := by
  induction n generalizing st with
  | zero => rfl
  | succ k ih =>
    show (animateFwIter dt k (animateFw dt st)).1.length
        + (animateFwIter dt k (animateFw dt st)).2 = _
    rw [ih (animateFw dt st), animateFw_count]

/-- Every survivor of n passes descends from an initial particle: its life
has grown by n dt, its maxLife is unchanged, and (after at least one pass)
it still satisfies the liveness check. -/
theorem animateFwIter_mem (dt : ℝ) (n : ℕ) :
    ∀ st : List Firework × ℕ, ∀ q ∈ (animateFwIter dt n st).1,
      ∃ p ∈ st.1, q.life = p.life + n * dt ∧ q.maxLife = p.maxLife
        ∧ (0 < n → q.life < q.maxLife) := by
  induction n with
  | zero =>
    intro st q hq
    exact ⟨q, hq, by simp, rfl, fun h => absurd h (by omega)⟩
  | succ k ih =>
    intro st q hq
    rcases ih (animateFw dt st) q hq with ⟨p1, hp1mem, hlife, hmax, hal⟩
    have hp1 : p1 ∈ (st.1.map fun p => fwUpdate p dt).filter
        (fun p => decide (p.life < p.maxLife)) := hp1mem
    rcases List.mem_filter.1 hp1 with ⟨hp1map, hp1al⟩
    rcases List.mem_map.1 hp1map with ⟨p0, hp0, hp0eq⟩
    refine ⟨p0, hp0, ?_, ?_, ?_⟩
    · rw [hlife, ← hp0eq]
      show p0.life + dt + k * dt = p0.life + ((k : ℕ) + 1 : ℕ) * dt
      push_cast
      ring
    · rw [hmax, ← hp0eq]
      rfl
    · intro _
      rcases Nat.eq_zero_or_pos k with hk0 | hk
      · subst hk0
        have hl : p1.life < p1.maxLife := of_decide_eq_true hp1al
        rw [hlife, hmax]
        simpa using hl
      · exact hal hk

/-- After enough fixed-dt passes every burst particle has expired. -/
theorem animateFwIter_empty (dt : ℝ) (hdt : 0 < dt) (l : List Firework) (c : ℕ)
    (hml : ∀ p ∈ l, p.life = 0 ∧ p.maxLife ≤ 1.5) (n : ℕ)
    (hn : (1.5 : ℝ) ≤ n * dt) : (animateFwIter dt n (l, c)).1 = [] := by
  rcases List.eq_nil_or_concat (animateFwIter dt n (l, c)).1 with hnil | ⟨t, q, hcat⟩
  · exact hnil
  · exfalso
    have hq : q ∈ (animateFwIter dt n (l, c)).1 := by
      rw [hcat, List.concat_eq_append]
      exact List.mem_append_right t (List.mem_singleton_self q)
    rcases animateFwIter_mem dt n (l, c) q hq with ⟨p, hp, hlife, hmax, hal⟩
    rcases hml p hp with ⟨hp0, hp15⟩
    have hnpos : 0 < n := by
      rcases Nat.eq_zero_or_pos n with h0 | h
      · subst h0
        norm_num at hn
      · exact h
    have hlt := hal hnpos
    rw [hlife, hmax, hp0] at hlt
    linarith

/-- Claim C8: a burst spawns N particles with 30 <= N <= 50, each with
velocity inside the symmetric cube of half-side 0.75, maxLife inside
[1.0, 1.5] and zero elapsed life; ticking at any fixed dt past the maximal
lifetime leaves the active set empty with every spawned particle disposed
exactly once (live count plus disposals is conserved at N throughout). -/
theorem c8_theorem (center : Vec3) (r0 : ℝ) (R : ℕ → ℕ → ℝ)
    (hr0 : 0 ≤ r0 ∧ r0 < 1) (hR : ∀ i j, 0 ≤ R i j ∧ R i j < 1) :
    (30 ≤ (spawnFirework center r0 R).length
        ∧ (spawnFirework center r0 R).length ≤ 50)
      ∧ (∀ p ∈ spawnFirework center r0 R,
          |p.vel.x| ≤ 0.75 ∧ |p.vel.y| ≤ 0.75 ∧ |p.vel.z| ≤ 0.75
            ∧ 1 ≤ p.maxLife ∧ p.maxLife ≤ 1.5 ∧ p.life = 0)
      ∧ (∀ dt : ℝ, 0 < dt → ∀ n : ℕ, (1.5 : ℝ) ≤ n * dt →
          (animateFwIter dt n (spawnFirework center r0 R, 0)).1 = []
            ∧ (animateFwIter dt n (spawnFirework center r0 R, 0)).2
              = (spawnFirework center r0 R).length) := by
  have hlen : (spawnFirework center r0 R).length = fwCount r0 := by
    unfold spawnFirework
    rw [List.length_map, List.length_range]
  have habs : ∀ r : ℝ, 0 ≤ r → r < 1 → |(r - 0.5) * 1.5| ≤ 0.75 := by
    intro r h0 h1
    rw [abs_le]
    constructor <;> nlinarith
  have hmem : ∀ p ∈ spawnFirework center r0 R,
      |p.vel.x| ≤ 0.75 ∧ |p.vel.y| ≤ 0.75 ∧ |p.vel.z| ≤ 0.75
        ∧ 1 ≤ p.maxLife ∧ p.maxLife ≤ 1.5 ∧ p.life = 0 := by
    intro p hp
    unfold spawnFirework at hp
    rcases List.mem_map.1 hp with ⟨i, -, hpe⟩
    subst hpe
    refine ⟨habs _ (hR i 0).1 (hR i 0).2, habs _ (hR i 1).1 (hR i 1).2,
      habs _ (hR i 2).1 (hR i 2).2, ?_, ?_, rfl⟩
    · show (1 : ℝ) ≤ 1.0 + R i 3 * 0.5
      nlinarith [(hR i 3).1]
    · show (1.0 : ℝ) + R i 3 * 0.5 ≤ 1.5
      nlinarith [(hR i 3).2]
  refine ⟨⟨?_, ?_⟩, hmem, ?_⟩
  · rw [hlen]
    have : 29 < fwCount r0 := Nat.lt_ceil.2 (by push_cast; nlinarith [hr0.1])
    omega
  · rw [hlen]
    exact Nat.ceil_le.2 (by push_cast; nlinarith [hr0.2])
  · intro dt hdt n hn
    have hml : ∀ p ∈ spawnFirework center r0 R, p.life = 0 ∧ p.maxLife ≤ 1.5 :=
      fun p hp => ⟨(hmem p hp).2.2.2.2.2, (hmem p hp).2.2.2.2.1⟩
    have hempty := animateFwIter_empty dt hdt (spawnFirework center r0 R) 0 hml n hn
    refine ⟨hempty, ?_⟩
    have hcount := animateFwIter_count dt n (spawnFirework center r0 R, 0)
    rw [hempty] at hcount
    simpa using hcount

/-- Witness for C8: the all-halves random stream. -/
theorem c8_witness :
    ((0 : ℝ) ≤ 1 / 2 ∧ (1 / 2 : ℝ) < 1)
      ∧ (∀ i j : ℕ, (0 : ℝ) ≤ (fun _ _ : ℕ => (1 / 2 : ℝ)) i j
          ∧ (fun _ _ : ℕ => (1 / 2 : ℝ)) i j < 1)
      ∧ (30 ≤ (spawnFirework ⟨0, 0, 0⟩ (1 / 2) fun _ _ => 1 / 2).length
        ∧ (spawnFirework ⟨0, 0, 0⟩ (1 / 2) fun _ _ => 1 / 2).length ≤ 50) := by
  have h1 : (0 : ℝ) ≤ 1 / 2 ∧ (1 / 2 : ℝ) < 1 := by norm_num
  have h2 : ∀ i j : ℕ, (0 : ℝ) ≤ (fun _ _ : ℕ => (1 / 2 : ℝ)) i j
      ∧ (fun _ _ : ℕ => (1 / 2 : ℝ)) i j < 1 := fun i j => by norm_num
  exact ⟨h1, h2, (c8_theorem ⟨0, 0, 0⟩ (1 / 2) (fun _ _ => 1 / 2) h1 h2).1⟩

end XmasTree
